import Mathlib

/-!
Shallow embedding of the product-API server in `src/server.js`.

The server keeps an in-memory array `products` of JavaScript objects and
exposes CRUD / search / list handlers behind authentication and validation
middleware, with a single terminal error-handling middleware.

Modelling conventions:
  - a JavaScript field value is a `JVal` (string, number, boolean); a field
    that may be absent from an object is an `Option JVal`;
  - request bodies and stored product records are both plain objects with
    the six schema fields, modelled by the structure `Obj`;
  - JavaScript numbers are modelled as `Int` (every numeric literal the
    claims touch is an integer);
  - code that can throw a `TypeError` (for example
    `p.description.toLowerCase()` on a record without a description) is
    modelled in `Except String`, the error carrying the thrown message;
  - each route handler is a pure function from the request data (and the
    configured secret, and for POST the fresh uuid draw) to a `Response`,
    paired with the new collection state for mutating routes;
  - raising `next(err)` is modelled by the `Response.err` constructor; the
    global error middleware is the function `errorHandler`.
-/

/-- JavaScript primitive values occurring in product records and bodies. -/
inductive JVal where
  | jstr (s : String)
  | jnum (n : Int)
  | jbool (b : Bool)
deriving DecidableEq, Repr

/-- JavaScript object with the six product-schema fields; a `none` field is
absent from the object (`undefined`). -/
structure Obj where
  id : Option JVal := none
  name : Option JVal := none
  description : Option JVal := none
  price : Option JVal := none
  category : Option JVal := none
  inStock : Option JVal := none
deriving DecidableEq, Repr

/-- Model of JavaScript `String.prototype.toLowerCase` (ASCII case map,
which covers every string in the repository). -/
def jsToLower (s : String) : String := ⟨s.data.map Char.toLower⟩

/-- Helper for substring containment on character lists. -/
def jsIncludesL (needle : List Char) : List Char → Bool
  | [] => needle.isEmpty
  | c :: rest => needle.isPrefixOf (c :: rest) || jsIncludesL needle rest

/-- Model of JavaScript `String.prototype.includes`: `needle` occurs as a
contiguous substring of `hay`. -/
def jsIncludes (hay needle : String) : Bool := jsIncludesL needle.data hay.data

/-- Raised failures reaching the global error middleware: the three custom
error classes of `server.js` (`NotFoundError`, `ValidationError`,
`AuthenticationError`) and `other` for any remaining thrown value, carrying
whatever `statusCode` / `message` properties it happens to have. -/
inductive AppError where
  | notFound (message : String)
  | validation (message : String) (details : List String)
  | auth (message : String)
  | other (statusCode : Option Nat) (message : Option String)
deriving DecidableEq, Repr

/-- JSON error body produced by the global error middleware. -/
structure ErrBody where
  status : String
  message : String
  details : Option (List String)
deriving DecidableEq, Repr

/-- Value of the `err.statusCode` property: the custom error classes set it
in their constructors; an arbitrary other failure may or may not carry one. -/
def errStatusCode : AppError → Option Nat
  | .notFound _ => some 404
  | .validation _ _ => some 400
  | .auth _ => some 401
  | .other sc _ => sc

/-- Value of the `err.message` property. -/
def errMessage : AppError → Option String
  | .notFound m => some m
  | .validation m _ => some m
  | .auth m => some m
  | .other _ m => m

/-- Model of `err.message || 'Internal Server Error'` (a missing or empty
message is falsy in JavaScript). -/
def jsMessageOrDefault : Option String → String
  | some s => if s = "" then "Internal Server Error" else s
  | none => "Internal Server Error"

/-- Defect list carried by a `ValidationError`; empty for every other error. -/
def errDefectList : AppError → List String
  | .validation _ d => d
  | _ => []

/-- Model of the `err instanceof ValidationError` test. -/
def isValidationErr : AppError → Bool
  | .validation _ _ => true
  | _ => false

/-- Global error-handling middleware of `server.js` (its final `app.use`):
status is `err.statusCode || 500`, message is
`err.message || 'Internal Server Error'`, and `details` is attached exactly
when the error is a `ValidationError` with a non-empty defect list. -/
def errorHandler (e : AppError) : Nat × ErrBody :=
  ((errStatusCode e).getD 500,
   { status := "error"
     message := jsMessageOrDefault (errMessage e)
     details :=
       if isValidationErr e && decide (0 < (errDefectList e).length)
       then some (errDefectList e) else none })

/-- Observable outcome of one request: a success payload or a raised failure
(which the error middleware then formats). -/
inductive Response where
  | okList (products : List Obj)
  | okPage (totalItems totalPages currentPage : Nat) (products : List Obj)
  | okProduct (code : Nat) (product : Obj)
  | noContent
  | err (e : AppError)
deriving DecidableEq, Repr

/-- HTTP status of a response; for raised failures, the status the error
middleware assigns. -/
def respStatus : Response → Nat
  | .okList _ => 200
  | .okPage _ _ _ _ => 200
  | .okProduct c _ => c
  | .noContent => 204
  | .err e => (errorHandler e).1

/-- Defect list in the response body, when the response is an error response
whose formatted body carries one. -/
def respDetails : Response → Option (List String)
  | .err e => (errorHandler e).2.details
  | _ => none

def authFailedMessage : String := "Authentication failed. Invalid or missing API key."

def validationFailedMessage : String := "Product data validation failed."

def searchQueryRequiredMessage : String := "Search query (q) parameter is required."

/-- Model of `authenticateMiddleware`: fails when the `x-api-key` header is
absent or falsy, or differs from the configured secret
(`!apiKey || apiKey !== API_KEY`). -/
def authFails (key : Option String) (secret : String) : Bool :=
  match key with
  | none => true
  | some s => s == "" || s != secret

/-- Name rule of `validateProduct`:
`!name || typeof name !== 'string' || name.length < 3`. -/
def nameDefect : Option JVal → Bool
  | some (.jstr s) => s == "" || decide (s.length < 3)
  | _ => true

/-- Price rule of `validateProduct`:
`price === undefined || typeof price !== 'number' || price <= 0`. -/
def priceDefect : Option JVal → Bool
  | some (.jnum n) => decide (n ≤ 0)
  | _ => true

/-- Category rule of `validateProduct`:
`!category || typeof category !== 'string'` (the empty string is falsy). -/
def categoryDefect : Option JVal → Bool
  | some (.jstr s) => s == ""
  | _ => true

/-- Rule for `inStock` in `validateProduct`:
`inStock !== undefined && typeof inStock !== 'boolean'`. -/
def inStockDefect : Option JVal → Bool
  | none => false
  | some (.jbool _) => false
  | some _ => true

def nameDefectMessage : String := "Name: required, string, min 3 characters."

def priceDefectMessage : String := "Price: required, positive number."

def categoryDefectMessage : String := "Category: required, string."

def inStockDefectMessage : String := "inStock: must be a boolean (true/false) if provided."

/-- Model of the `validateProduct` middleware's defect collection: the four
rules are checked one after another and every violated rule pushes its
message; the request proceeds only when the list is empty. -/
def validateProduct (b : Obj) : List String :=
  (if nameDefect b.name then [nameDefectMessage] else [])
  ++ (if priceDefect b.price then [priceDefectMessage] else [])
  ++ (if categoryDefect b.category then [categoryDefectMessage] else [])
  ++ (if inStockDefect b.inStock then [inStockDefectMessage] else [])

/-- One field of a JavaScript object spread: a field present in the spread
source overrides the field of the base object. -/
def spreadField (old new : Option JVal) : Option JVal :=
  match new with
  | some v => some v
  | none => old

/-- Object spread of `b` over `a` on the six schema fields. -/
def mergeObj (a b : Obj) : Obj :=
  { id := spreadField a.id b.id
    name := spreadField a.name b.name
    description := spreadField a.description b.description
    price := spreadField a.price b.price
    category := spreadField a.category b.category
    inStock := spreadField a.inStock b.inStock }

/-- Record built by the POST handler: spread of the request body over an
object holding the freshly generated uuid, then the explicit `inStock`
default (`req.body.inStock !== undefined ? req.body.inStock : true`).
Note the body is spread after the generated id, so a body `id` field
overrides the uuid. -/
def createRecord (freshId : String) (body : Obj) : Obj :=
  let base : Obj := { id := some (.jstr freshId) }
  let spread := mergeObj base body
  { spread with inStock := some (body.inStock.getD (.jbool true)) }

/-- Handler of `GET /api/products/:id`: first record whose `id` strictly
equals the path parameter, else a `NotFoundError`. -/
def handleGetById (l : List Obj) (pid : String) : Response :=
  match l.find? (fun p => p.id == some (.jstr pid)) with
  | some p => .okProduct 200 p
  | none => .err (.notFound ("Product with id " ++ pid ++ " not found."))

/-- Handler chain of `POST /api/products`: `authenticateMiddleware`, then
`validateProduct`, then the create handler, which appends the new record and
answers 201 with it. -/
def handlePost (secret : String) (l : List Obj) (key : Option String)
    (freshId : String) (body : Obj) : Response × List Obj :=
  if authFails key secret then (.err (.auth authFailedMessage), l)
  else if validateProduct body = [] then
    let newP := createRecord freshId body
    (.okProduct 201 newP, l ++ [newP])
  else (.err (.validation validationFailedMessage (validateProduct body)), l)

/-- Model of `Array.prototype.findIndex` together with the subsequent
element access: index and element of the first match, `none` when the
JavaScript call returns `-1`. -/
def jsFindEntry {α : Type} (p : α → Bool) : List α → Option (Nat × α)
  | [] => none
  | x :: xs => if p x then some (0, x) else (jsFindEntry p xs).map (fun e => (e.1 + 1, e.2))

/-- Handler chain of `PUT /api/products/:id`: auth, full validation of the
body, lookup by path id, then in-place replacement by the spread
`...existing, ...req.body` with the id pinned to the path parameter last. -/
def handlePut (secret : String) (l : List Obj) (key : Option String)
    (pid : String) (body : Obj) : Response × List Obj :=
  if authFails key secret then (.err (.auth authFailedMessage), l)
  else if validateProduct body = [] then
    match jsFindEntry (fun p => p.id == some (.jstr pid)) l with
    | none => (.err (.notFound ("Product with id " ++ pid ++ " not found for update.")), l)
    | some (i, old) =>
      let updated := { mergeObj old body with id := some (.jstr pid) }
      (.okProduct 200 updated, l.set i updated)
  else (.err (.validation validationFailedMessage (validateProduct body)), l)

/-- JavaScript `.toLowerCase()` on a possibly absent, possibly non-string
field: only a present string succeeds, anything else throws a `TypeError`. -/
def asStrE : Option JVal → Except String String
  | some (.jstr s) => .ok s
  | some _ => .error "TypeError: toLowerCase is not a function"
  | none => .error "TypeError: Cannot read properties of undefined (reading toLowerCase)"

/-- Search predicate of `GET /api/products/search` on one record:
`p.name.toLowerCase().includes(q) || p.description.toLowerCase().includes(q)`,
with JavaScript short-circuit evaluation of `||` — the description is only
dereferenced when the name does not match. -/
def searchPredE (sq : String) (p : Obj) : Except String Bool :=
  match asStrE p.name with
  | .error e => .error e
  | .ok n =>
    if jsIncludes (jsToLower n) sq then .ok true
    else
      match asStrE p.description with
      | .error e => .error e
      | .ok d => .ok (jsIncludes (jsToLower d) sq)

/-- Model of `Array.prototype.filter` with a predicate that can throw:
elements are visited left to right and a thrown error aborts the whole
filter. -/
def filterE {α : Type} (f : α → Except String Bool) : List α → Except String (List α)
  | [] => .ok []
  | x :: xs =>
    match f x with
    | .error e => .error e
    | .ok true =>
      match filterE f xs with
      | .error e => .error e
      | .ok rest => .ok (x :: rest)
    | .ok false => filterE f xs

/-- Handler of `GET /api/products/search`: a missing or empty `q` raises a
`ValidationError` (empty defect list); otherwise the collection is filtered
by the throwing search predicate, a throw landing at the error middleware as
an untyped failure. -/
def handleSearch (l : List Obj) (q : Option String) : Response :=
  match q with
  | none => .err (.validation searchQueryRequiredMessage [])
  | some qs =>
    if qs = "" then .err (.validation searchQueryRequiredMessage [])
    else
      match filterE (searchPredE (jsToLower qs)) l with
      | .ok results => .okList results
      | .error m => .err (.other none (some m))

/-- Category predicate of the list handler:
`p.category.toLowerCase() === category.toLowerCase()`. -/
def catPredE (c : String) (p : Obj) : Except String Bool :=
  match asStrE p.category with
  | .error e => .error e
  | .ok s => .ok (jsToLower s == jsToLower c)

/-- Model of `Array.prototype.slice(s, e)` for `0 ≤ s ≤ e`, the only range
the list handler produces for page ≥ 1. -/
def jsSlice {α : Type} (l : List α) (s e : Nat) : List α := (l.drop s).take (e - s)

/-- Handler of `GET /api/products`: optional category filter (skipped for an
absent or empty — falsy — parameter), then pagination by slicing at
positions `(page-1)*limit` to `page*limit`. `totalPages` is
`Math.ceil(filtered.length / limit)`, here `(n + limit - 1) / limit`, which
agrees with the ceiling for `limit ≥ 1` (the handler theorems assume a
positive limit, as does the claim). `page` and `limit` are the parsed
integer query parameters. -/
def handleList (l : List Obj) (category : Option String) (page limit : Nat) : Response :=
  let filteredE : Except String (List Obj) :=
    match category with
    | none => .ok l
    | some c => if c = "" then .ok l else filterE (catPredE c) l
  match filteredE with
  | .error m => .err (.other none (some m))
  | .ok filtered =>
    .okPage filtered.length ((filtered.length + limit - 1) / limit) page
      (jsSlice filtered ((page - 1) * limit) (page * limit))

/-- String content of a field, defaulting to the empty string; used only by
the spec-side total restatements of the throwing predicates. -/
def strOfD : Option JVal → String
  | some (.jstr s) => s
  | _ => ""

/-- Decidable test that a field holds a string. -/
def isJStrB : Option JVal → Bool
  | some (.jstr _) => true
  | _ => false

/-- Total search predicate: the value `searchPredE` computes on records
whose name and description are present strings. -/
def searchMatches (q : String) (p : Obj) : Bool :=
  jsIncludes (jsToLower (strOfD p.name)) (jsToLower q)
  || jsIncludes (jsToLower (strOfD p.description)) (jsToLower q)

/-- Total category predicate: the value `catPredE` computes on records whose
category is a present string. -/
def catMatches (c : String) (p : Obj) : Bool :=
  jsToLower (strOfD p.category) == jsToLower c

/-- Total category filter of the list handler. -/
def jsCategoryFilter (l : List Obj) (category : Option String) : List Obj :=
  match category with
  | none => l
  | some c => if c = "" then l else l.filter (catMatches c)

/-- Test that a record's name is a present string containing `q`
case-insensitively (the short-circuit left disjunct of the search
predicate). -/
def nameMatchesQ (q : String) (p : Obj) : Bool :=
  match p.name with
  | some (.jstr s) => jsIncludes (jsToLower s) (jsToLower q)
  | _ => false

/-- Seed collection the server starts with (`let products = [...]`). -/
def seedProducts : List Obj :=
  [ { id := some (.jstr "1"), name := some (.jstr "Laptop"),
      description := some (.jstr "High-performance laptop with 16GB RAM"),
      price := some (.jnum 1200), category := some (.jstr "electronics"),
      inStock := some (.jbool true) },
    { id := some (.jstr "2"), name := some (.jstr "Smartphone"),
      description := some (.jstr "Latest model with 128GB storage"),
      price := some (.jnum 800), category := some (.jstr "electronics"),
      inStock := some (.jbool true) },
    { id := some (.jstr "3"), name := some (.jstr "Coffee Maker"),
      description := some (.jstr "Programmable coffee maker with timer"),
      price := some (.jnum 50), category := some (.jstr "kitchen"),
      inStock := some (.jbool false) } ]

/-! Concrete fixtures used by the claim theorems and witnesses. -/

/-- First seed record (`id: '1'`, the Laptop). -/
def laptopSeed : Obj :=
  { id := some (.jstr "1"), name := some (.jstr "Laptop"),
    description := some (.jstr "High-performance laptop with 16GB RAM"),
    price := some (.jnum 1200), category := some (.jstr "electronics"),
    inStock := some (.jbool true) }

/-- Valid create body that also carries a client-chosen `id` colliding with a
seed record. -/
def tabletBody : Obj :=
  { id := some (.jstr "1"), name := some (.jstr "Tablet"),
    price := some (.jnum 10), category := some (.jstr "electronics") }

/-- Record the POST handler builds from `tabletBody` (the body `id`
overrides the generated uuid). -/
def tabletCreated : Obj :=
  { id := some (.jstr "1"), name := some (.jstr "Tablet"),
    price := some (.jnum 10), category := some (.jstr "electronics"),
    inStock := some (.jbool true) }

/-- Product without a `description` field, as produced by a valid create
that omits the optional description. -/
def widgetNoDesc : Obj :=
  { id := some (.jstr "9"), name := some (.jstr "Widget"),
    price := some (.jnum 5), category := some (.jstr "toys"),
    inStock := some (.jbool true) }

/-- Invalid create payload of the claim: short name, negative price, empty
category. -/
def invalidBody : Obj :=
  { name := some (.jstr "ab"), price := some (.jnum (-1)),
    category := some (.jstr "") }

/-- Update body omitting the required `name`. -/
def noNameBody : Obj :=
  { price := some (.jnum 5), category := some (.jstr "misc") }

/-- Valid update body carrying a client-chosen `id` differing from the
path id. -/
def putBody : Obj :=
  { id := some (.jstr "999"), name := some (.jstr "Gaming Laptop"),
    price := some (.jnum 1500), category := some (.jstr "electronics") }

/-- Record stored by a successful `PUT /api/products/1` with `putBody`. -/
def putRec : Obj :=
  { id := some (.jstr "1"), name := some (.jstr "Gaming Laptop"),
    description := some (.jstr "High-performance laptop with 16GB RAM"),
    price := some (.jnum 1500), category := some (.jstr "electronics"),
    inStock := some (.jbool true) }

/-- Collection state after that update. -/
def putList : List Obj := seedProducts.set 0 putRec

/-- Page window of the claim: the records of the (filtered) list at
positions from `(page-1)*limit` up to `page*limit` exclusive. -/
def pageWindow (F : List Obj) (page limit : Nat) : List Obj :=
  (F.drop ((page - 1) * limit)).take limit

/-! Helper lemmas about the embedded operations. -/

/-- A throwing filter whose predicate succeeds pointwise agrees with the
pure filter. -/
theorem filterE_ok {α : Type} (f : α → Except String Bool) (g : α → Bool) :
    ∀ l : List α, (∀ x ∈ l, f x = .ok (g x)) → filterE f l = .ok (l.filter g) := by
  intro l
  induction l with
  | nil => intro _; rfl
  | cons x xs ih =>
    intro h
    have hx := h x (by simp)
    have hxs := ih (fun y hy => h y (by simp [hy]))
    cases hgx : g x with
    | true => simp [filterE, hx, hgx, hxs, List.filter_cons]
    | false => simp [filterE, hx, hgx, hxs, List.filter_cons]

/-- A throwing filter throws as soon as any element's predicate throws. -/
theorem filterE_error_of_mem {α : Type} (f : α → Except String Bool) :
    ∀ (l : List α) (x : α), x ∈ l → (∃ e, f x = .error e) → ∃ e, filterE f l = .error e := by
  intro l
  induction l with
  | nil => intro x hx; cases hx
  | cons y ys ih =>
    intro x hx he
    cases hfy : f y with
    | error e2 => exact ⟨e2, by simp [filterE, hfy]⟩
    | ok b =>
      have hxy : x ∈ ys := by
        rcases List.mem_cons.mp hx with h1 | h2
        · subst h1
          obtain ⟨e, he⟩ := he
          rw [hfy] at he
          cases he
        · exact h2
      obtain ⟨e3, he3⟩ := ih x hxy he
      cases b with
      | true => exact ⟨e3, by simp [filterE, hfy, he3]⟩
      | false => exact ⟨e3, by simp [filterE, hfy, he3]⟩

/-- Soundness of the `findIndex` model: a hit is in bounds, returns the
element at that position, and that element satisfies the predicate. -/
theorem jsFindEntry_some {α : Type} (p : α → Bool) :
    ∀ (l : List α) (i : Nat) (x : α),
      jsFindEntry p l = some (i, x) → l[i]? = some x ∧ p x = true := by
  intro l
  induction l with
  | nil => intro i x h; cases h
  | cons y ys ih =>
    intro i x h
    by_cases hy : p y
    · simp [jsFindEntry, hy] at h
      obtain ⟨hi, hx⟩ := h
      subst hi; subst hx
      exact ⟨by simp, hy⟩
    · cases hys : jsFindEntry p ys with
      | none => simp [jsFindEntry, hy, hys] at h
      | some e =>
        obtain ⟨j, z⟩ := e
        simp only [jsFindEntry, hy, hys, if_neg, Option.map_some'] at h
        have hcases := Option.some.inj h
        have hj : j + 1 = i := congrArg Prod.fst hcases
        have hx : z = x := congrArg Prod.snd hcases
        subst hj; subst hx
        have := ih j z hys
        simpa using this

/-- Category predicate on a record whose category is a present string. -/
theorem catPredE_ok (s : String) (p : Obj) (h : isJStrB p.category = true) :
    catPredE s p = .ok (catMatches s p) := by
  cases hc : p.category with
  | none => rw [hc] at h; simp [isJStrB] at h
  | some v =>
    cases v with
    | jstr str => simp [catPredE, asStrE, hc, catMatches, strOfD]
    | jnum n => rw [hc] at h; simp [isJStrB] at h
    | jbool b => rw [hc] at h; simp [isJStrB] at h

/-- Search predicate on a record whose name and description are present
strings. -/
theorem searchPredE_ok (q : String) (p : Obj)
    (hn : isJStrB p.name = true) (hd : isJStrB p.description = true) :
    searchPredE (jsToLower q) p = .ok (searchMatches q p) := by
  cases hname : p.name with
  | none => rw [hname] at hn; simp [isJStrB] at hn
  | some v =>
    cases v with
    | jnum n => rw [hname] at hn; simp [isJStrB] at hn
    | jbool b => rw [hname] at hn; simp [isJStrB] at hn
    | jstr nm =>
      cases hdesc : p.description with
      | none => rw [hdesc] at hd; simp [isJStrB] at hd
      | some w =>
        cases w with
        | jnum n => rw [hdesc] at hd; simp [isJStrB] at hd
        | jbool b => rw [hdesc] at hd; simp [isJStrB] at hd
        | jstr ds =>
          by_cases hin : jsIncludes (jsToLower nm) (jsToLower q) = true
          · simp [searchPredE, asStrE, hname, hdesc, searchMatches, strOfD, hin]
          · simp [searchPredE, asStrE, hname, hdesc, searchMatches, strOfD, hin]

/-- Search predicate throws on a record whose description is absent and
whose name does not already match. -/
theorem searchPredE_throws (q : String) (p : Obj)
    (hdesc : p.description = none) (hnm : nameMatchesQ q p = false) :
    ∃ e, searchPredE (jsToLower q) p = .error e := by
  cases hname : p.name with
  | none =>
    exact ⟨"TypeError: Cannot read properties of undefined (reading toLowerCase)",
      by simp [searchPredE, asStrE, hname]⟩
  | some v =>
    cases v with
    | jnum n =>
      exact ⟨"TypeError: toLowerCase is not a function",
        by simp [searchPredE, asStrE, hname]⟩
    | jbool b =>
      exact ⟨"TypeError: toLowerCase is not a function",
        by simp [searchPredE, asStrE, hname]⟩
    | jstr nm =>
      have hin : jsIncludes (jsToLower nm) (jsToLower q) = false := by
        have h2 := hnm
        rw [nameMatchesQ, hname] at h2
        exact h2
      exact ⟨"TypeError: Cannot read properties of undefined (reading toLowerCase)",
        by simp [searchPredE, asStrE, hname, hdesc, hin]⟩

/-- List handler on a collection of string categories: the filter never
throws and the response is the paginated window of the pure filtered list. -/
theorem handleList_ok (l : List Obj) (c : Option String) (page L : Nat)
    (hcat : ∀ p ∈ l, isJStrB p.category = true) :
    handleList l c page L
      = .okPage (jsCategoryFilter l c).length
          (((jsCategoryFilter l c).length + L - 1) / L) page
          (jsSlice (jsCategoryFilter l c) ((page - 1) * L) (page * L)) := by
  cases c with
  | none => rfl
  | some s =>
    by_cases hs : s = ""
    · simp [handleList, jsCategoryFilter, hs]
    · have hf : filterE (catPredE s) l = .ok (l.filter (catMatches s)) :=
        filterE_ok _ _ l (fun p hp => catPredE_ok s p (hcat p hp))
      simp [handleList, jsCategoryFilter, hs, hf]

/-- Sum over pages 1..T equals the same sum reindexed from 0. -/
theorem sum_Icc_one (f : Nat → Nat) :
    ∀ T, ∑ p ∈ Finset.Icc 1 T, f p = ∑ i ∈ Finset.range T, f (i + 1) := by
  intro T
  induction T with
  | zero => rw [Finset.range_zero, Finset.sum_empty, Finset.Icc_eq_empty (by omega), Finset.sum_empty]
  | succ T ih => rw [Finset.sum_Icc_succ_top (by omega), ih, Finset.sum_range_succ]

/-- Window lengths over all `ceil(N / L)` pages sum to `N`. -/
theorem ceil_pages_sum (L : Nat) (hL : 1 ≤ L) :
    ∀ T N, (N + L - 1) / L = T → ∑ i ∈ Finset.range T, min L (N - i * L) = N := by
  intro T
  induction T with
  | zero =>
    intro N hT
    have hlt : N + L - 1 < L := (Nat.div_eq_zero_iff (by omega)).mp hT
    have hN : N = 0 := by omega
    subst hN
    simp
  | succ T ih =>
    intro N hT
    have hN1 : 1 ≤ N := by
      by_contra h0
      have hN0 : N = 0 := by omega
      subst hN0
      rw [Nat.div_eq_of_lt (by omega)] at hT
      omega
    have hnext : (N - L + L - 1) / L = T := by
      by_cases hNL : L ≤ N
      · have h1 : N - L + L - 1 = N - 1 := by omega
        have h2 : N + L - 1 = (N - 1) + L := by omega
        rw [h1]
        rw [h2, Nat.add_div_right _ (by omega)] at hT
        omega
      · have h1 : (N + L - 1) / L = 1 := by
          have h2 : N + L - 1 = (N - 1) + L := by omega
          rw [h2, Nat.add_div_right _ (by omega), Nat.div_eq_of_lt (by omega)]
        have hT0 : T = 0 := by omega
        subst hT0
        have h3 : N - L = 0 := by omega
        rw [h3, Nat.div_eq_of_lt (by omega)]
    have hstep : ∀ k : Nat, N - (k + 1) * L = (N - L) - k * L := by
      intro k
      have h4 : (k + 1) * L = k * L + L := by ring
      rw [h4]
      generalize k * L = m
      omega
    rw [Finset.sum_range_succ']
    have hsum : ∑ i ∈ Finset.range T, min L (N - (i + 1) * L)
        = ∑ i ∈ Finset.range T, min L ((N - L) - i * L) :=
      Finset.sum_congr rfl (fun i _ => by rw [hstep i])
    rw [hsum, ih (N - L) hnext]
    simp only [Nat.zero_mul, Nat.sub_zero]
    omega

/-- Ceiling characterization of the page count computed by the handler. -/
theorem ceil_char (L N : Nat) (hL : 1 ≤ L) :
    ((N + L - 1) / L = 0 ↔ N = 0)
    ∧ (0 < N → ((N + L - 1) / L - 1) * L < N ∧ N ≤ ((N + L - 1) / L) * L) := by
  have hdiv := Nat.div_add_mod (N + L - 1) L
  have hmod : (N + L - 1) % L < L := Nat.mod_lt _ (by omega)
  constructor
  · constructor
    · intro hT0
      rw [hT0] at hdiv
      omega
    · intro hN0
      subst hN0
      exact Nat.div_eq_of_lt (by omega)
  · intro hN
    rw [Nat.sub_mul, one_mul]
    rw [mul_comm] at hdiv
    generalize (N + L - 1) / L * L = M at *
    omega

/-! Claim theorems. -/

/-- C1: the claim says a valid create always stores a system-assigned,
non-empty id that is unique among existing ids, regardless of any `id` field
in the request body. The code spreads the request body after the generated
uuid, so a client-supplied `id` overrides it: this evaluation shows a valid
authenticated create whose body carries `id: '1'` being stored with id `'1'`
(not the fresh uuid), leaving two records with id `'1'` in the collection. -/
theorem claim_C1_clientId_overrides_uuid :
    handlePost "super-secret-key-123" seedProducts (some "super-secret-key-123")
        "fresh-uuid-1" tabletBody
      = (.okProduct 201 tabletCreated, seedProducts ++ [tabletCreated])
    ∧ validateProduct tabletBody = []
    ∧ tabletCreated.id = some (.jstr "1")
    ∧ tabletCreated.id ≠ some (.jstr "fresh-uuid-1")
    ∧ ((seedProducts ++ [tabletCreated]).filter
        (fun p => p.id == some (.jstr "1"))).length = 2 := by
  refine ⟨by decide, by decide, by decide, by decide, by decide⟩

/-- C10: the claim says creating then fetching by the returned id yields the
created record. With the same body-id override as C1, the create returns a
record with id `'1'`, but `GET /api/products/1` finds the pre-existing seed
Laptop first, a record different from the created one. -/
theorem claim_C10_roundtrip_breaks_on_body_id :
    handlePost "super-secret-key-123" seedProducts (some "super-secret-key-123")
        "fresh-uuid-2" tabletBody
      = (.okProduct 201 tabletCreated, seedProducts ++ [tabletCreated])
    ∧ handleGetById (seedProducts ++ [tabletCreated]) "1" = .okProduct 200 laptopSeed
    ∧ laptopSeed ≠ tabletCreated := by
  refine ⟨by decide, by decide, by decide⟩

/-- C2 counterexample: the claim says that whenever the collection holds a
record without a description, every search with a non-empty `q` fails (no
200 match list). Yet when the description-less record's name matches `q`,
the `||` short-circuits before dereferencing the description and the search
returns 200 with the match list. -/
theorem claim_C2_counterexample :
    widgetNoDesc.description = none
    ∧ ("widget" : String) ≠ ""
    ∧ handleSearch [widgetNoDesc] (some "widget") = .okList [widgetNoDesc]
    ∧ respStatus (handleSearch [widgetNoDesc] (some "widget")) = 200 := by
  refine ⟨rfl, by decide, by decide, by decide⟩

/-- C2 amended: if some record of the collection has no description and its
name does not contain `q` case-insensitively, then the search predicate
dereferences the absent description, the thrown `TypeError` reaches the
error middleware as an untyped failure, and the response status is 500. -/
theorem claim_C2_amended_search_500 (l : List Obj) (q : String) (hq : q ≠ "")
    (hbad : ∃ p ∈ l, p.description = none ∧ nameMatchesQ q p = false) :
    respStatus (handleSearch l (some q)) = 500
    ∧ ∃ m, handleSearch l (some q) = .err (.other none (some m)) := by
  obtain ⟨p, hp, hdesc, hnm⟩ := hbad
  obtain ⟨m, hm⟩ := filterE_error_of_mem (searchPredE (jsToLower q)) l p hp
    (searchPredE_throws q p hdesc hnm)
  constructor
  · simp [handleSearch, hq, hm, respStatus, errorHandler, errStatusCode]
  · exact ⟨m, by simp [handleSearch, hq, hm]⟩

/-- C2 amended witness: concrete description-less record whose name does not
contain the query. -/
theorem claim_C2_amended_witness :
    (("zzz" : String) ≠ ""
      ∧ ∃ p ∈ [widgetNoDesc], p.description = none ∧ nameMatchesQ "zzz" p = false)
    ∧ respStatus (handleSearch [widgetNoDesc] (some "zzz")) = 500 :=
  ⟨⟨by decide, by decide⟩,
    (claim_C2_amended_search_500 [widgetNoDesc] "zzz" (by decide) (by decide)).1⟩

/-- C3 counterexample: the claim says every failure other than the three
typed ones yields status 500 with a generic message. The error middleware
actually echoes `err.statusCode` and `err.message` when present: an untyped
failure with message `boom` is answered with message `boom` (not the generic
one), and an untyped failure carrying `statusCode` 400 — the shape of the
JSON body parser's malformed-body error — is answered with 400, not 500. -/
theorem claim_C3_counterexample :
    isValidationErr (.other none (some "boom")) = false
    ∧ (errorHandler (.other none (some "boom"))).2.message = "boom"
    ∧ ("boom" : String) ≠ "Internal Server Error"
    ∧ (errorHandler (.other (some 400) (some "Unexpected token o in JSON"))).1 = 400
    ∧ (400 : Nat) ≠ 500 := by
  refine ⟨rfl, by decide, by decide, by decide, by decide⟩

/-- C3 amended: a typed failure yields its declared status code (404/400/401)
and the body `status:error` with its own message; `details` is attached
exactly when the failure is a ValidationError with a non-empty defect list.
Every other failure yields its own `statusCode` when it carries one
(500 otherwise) and its own `message` when present and non-empty (the
generic message otherwise). -/
theorem claim_C3_amended_error_translator :
    (∀ m : String, m ≠ "" →
      errorHandler (.notFound m) = (404, ⟨"error", m, none⟩)
      ∧ errorHandler (.auth m) = (401, ⟨"error", m, none⟩)
      ∧ ∀ d : List String,
          errorHandler (.validation m d)
            = (400, ⟨"error", m, if d = [] then none else some d⟩))
    ∧ (∀ (sc : Option Nat) (m : Option String),
        errorHandler (.other sc m)
          = (sc.getD 500, ⟨"error", jsMessageOrDefault m, none⟩)) := by
  constructor
  · intro m hm
    refine ⟨?_, ?_, ?_⟩
    · simp [errorHandler, errStatusCode, errMessage, jsMessageOrDefault, hm,
        isValidationErr, errDefectList]
    · simp [errorHandler, errStatusCode, errMessage, jsMessageOrDefault, hm,
        isValidationErr, errDefectList]
    · intro d
      cases d with
      | nil =>
        simp [errorHandler, errStatusCode, errMessage, jsMessageOrDefault, hm,
          isValidationErr, errDefectList]
      | cons a as =>
        simp [errorHandler, errStatusCode, errMessage, jsMessageOrDefault, hm,
          isValidationErr, errDefectList]
  · intro sc m
    simp [errorHandler, errStatusCode, errMessage, isValidationErr, errDefectList]

/-- C3 amended witness: the translator applied at concrete typed and untyped
failures. -/
theorem claim_C3_amended_witness :
    ("Product with id 99 not found." : String) ≠ ""
    ∧ errorHandler (.notFound "Product with id 99 not found.")
        = (404, ⟨"error", "Product with id 99 not found.", none⟩) :=
  ⟨by decide,
    (claim_C3_amended_error_translator.1 "Product with id 99 not found." (by decide)).1⟩

/-- C4 counterexample: the claim says a non-empty `q` matching no record
yields 200 with an empty array. On a collection holding a record without a
description whose name does not match, the handler instead throws while
filtering and the response is a 500 error, not an empty 200 list. -/
theorem claim_C4_counterexample :
    ("zzz" : String) ≠ ""
    ∧ (∀ p ∈ [widgetNoDesc], searchMatches "zzz" p = false)
    ∧ handleSearch [widgetNoDesc] (some "zzz")
        = .err (.other none
            (some "TypeError: Cannot read properties of undefined (reading toLowerCase)"))
    ∧ respStatus (handleSearch [widgetNoDesc] (some "zzz")) = 500
    ∧ handleSearch [widgetNoDesc] (some "zzz") ≠ .okList [] := by
  refine ⟨by decide, by decide, by decide, by decide, by decide⟩

/-- C4 amended: on a collection whose records all carry string names and
string descriptions (the shape the data model prescribes), the search
endpoint behaves as claimed: missing or empty `q` is a 400 ValidationError;
a non-empty `q` yields 200 with exactly the records whose name or
description contains `q` case-insensitively, the whole match list with no
pagination; in particular a `q` matching no record yields an empty 200
list. -/
theorem claim_C4_amended_search_contract (l : List Obj)
    (hn : ∀ p ∈ l, isJStrB p.name = true) (hd : ∀ p ∈ l, isJStrB p.description = true) :
    handleSearch l none = .err (.validation searchQueryRequiredMessage [])
    ∧ respStatus (handleSearch l none) = 400
    ∧ handleSearch l (some "") = .err (.validation searchQueryRequiredMessage [])
    ∧ respStatus (handleSearch l (some "")) = 400
    ∧ ∀ q : String, q ≠ "" →
        handleSearch l (some q) = .okList (l.filter (searchMatches q))
        ∧ ((∀ p ∈ l, searchMatches q p = false) → handleSearch l (some q) = .okList []) := by
  refine ⟨rfl, rfl, rfl, rfl, ?_⟩
  intro q hq
  have hfe : filterE (searchPredE (jsToLower q)) l = .ok (l.filter (searchMatches q)) :=
    filterE_ok _ _ l (fun p hp => searchPredE_ok q p (hn p hp) (hd p hp))
  constructor
  · simp [handleSearch, hq, hfe]
  · intro hnone
    have hnil : l.filter (searchMatches q) = [] :=
      List.filter_eq_nil_iff.mpr (fun a ha => by simp [hnone a ha])
    simp [handleSearch, hq, hfe, hnil]

/-- C4 amended witness: the seed collection (all names and descriptions are
strings) with a query matching one record. -/
theorem claim_C4_amended_witness :
    ((∀ p ∈ seedProducts, isJStrB p.name = true)
      ∧ (∀ p ∈ seedProducts, isJStrB p.description = true)
      ∧ ("laptop" : String) ≠ "")
    ∧ handleSearch seedProducts (some "laptop")
        = .okList (seedProducts.filter (searchMatches "laptop")) :=
  ⟨⟨by decide, by decide, by decide⟩,
    ((claim_C4_amended_search_contract seedProducts (by decide) (by decide)).2.2.2.2
      "laptop" (by decide)).1⟩

/-- C5: for every collection, category filter and positive limit `L`,
`GET /api/products` answers page `p` with the window of the filtered list at
positions from `(p-1)*L` to `p*L` and echoes the requested page unclamped;
the window lengths over pages 1..totalPages sum to the filtered count;
`totalPages` is the ceiling of `filteredCount / L` (zero for an empty
filtered list, otherwise the unique `T` with `(T-1)*L < count ≤ T*L`); and
any page beyond `totalPages` yields an empty window, not an error. -/
theorem claim_C5_pagination (l : List Obj) (c : Option String) (L : Nat)
    (hL : 1 ≤ L) (hcat : ∀ p ∈ l, isJStrB p.category = true) :
    (∀ page : Nat, 1 ≤ page →
      handleList l c page L
        = .okPage (jsCategoryFilter l c).length
            (((jsCategoryFilter l c).length + L - 1) / L) page
            (pageWindow (jsCategoryFilter l c) page L))
    ∧ (∑ p ∈ Finset.Icc 1 (((jsCategoryFilter l c).length + L - 1) / L),
        (pageWindow (jsCategoryFilter l c) p L).length) = (jsCategoryFilter l c).length
    ∧ (((jsCategoryFilter l c).length + L - 1) / L = 0 ↔ (jsCategoryFilter l c).length = 0)
    ∧ (0 < (jsCategoryFilter l c).length →
        ((((jsCategoryFilter l c).length + L - 1) / L) - 1) * L < (jsCategoryFilter l c).length
        ∧ (jsCategoryFilter l c).length ≤ (((jsCategoryFilter l c).length + L - 1) / L) * L)
    ∧ (∀ page : Nat, (((jsCategoryFilter l c).length + L - 1) / L) < page →
        pageWindow (jsCategoryFilter l c) page L = []) := by
  have hmain : ∀ page : Nat, 1 ≤ page →
      handleList l c page L
        = .okPage (jsCategoryFilter l c).length
            (((jsCategoryFilter l c).length + L - 1) / L) page
            (pageWindow (jsCategoryFilter l c) page L) := by
    intro page hpage
    rw [handleList_ok l c page L hcat]
    have hmul : L ≤ page * L := by simpa using Nat.mul_le_mul_right L hpage
    have hslice : page * L - (page - 1) * L = L := by
      rw [Nat.sub_mul, one_mul]
      generalize page * L = P at hmul ⊢
      omega
    simp [jsSlice, pageWindow, hslice]
  generalize hF : jsCategoryFilter l c = F at hmain ⊢
  refine ⟨hmain, ?_, (ceil_char L F.length hL).1, (ceil_char L F.length hL).2, ?_⟩
  · have hw : ∀ p : Nat, (pageWindow F p L).length = min L (F.length - (p - 1) * L) := by
      intro p
      simp [pageWindow, List.length_take, List.length_drop]
    rw [sum_Icc_one (fun p => (pageWindow F p L).length)]
    have hcongr : ∀ i ∈ Finset.range ((F.length + L - 1) / L),
        (fun p => (pageWindow F p L).length) (i + 1) = min L (F.length - i * L) := by
      intro i _
      show (pageWindow F (i + 1) L).length = min L (F.length - i * L)
      rw [hw (i + 1)]
      simp
    rw [Finset.sum_congr rfl hcongr]
    exact ceil_pages_sum L hL _ F.length rfl
  · intro page hpage
    have hN : F.length ≤ (page - 1) * L := by
      by_cases h0 : F.length = 0
      · rw [h0]; exact Nat.zero_le _
      · have hpos : 0 < F.length := Nat.pos_of_ne_zero h0
        have hchar := (ceil_char L F.length hL).2 hpos
        have hTle : (F.length + L - 1) / L ≤ page - 1 := by omega
        exact le_trans hchar.2 (Nat.mul_le_mul_right L hTle)
    simp [pageWindow, List.drop_eq_nil_of_le hN]

/-- C5 witness: the spec's own scenario — seed collection, category filter
`electronics`, limit 1, page 2 — yields totalItems 2, totalPages 2,
currentPage 2 and the second electronics record. -/
theorem claim_C5_witness :
    (1 ≤ 1 ∧ (∀ p ∈ seedProducts, isJStrB p.category = true))
    ∧ handleList seedProducts (some "electronics") 2 1
        = .okPage (jsCategoryFilter seedProducts (some "electronics")).length
            (((jsCategoryFilter seedProducts (some "electronics")).length + 1 - 1) / 1) 2
            (pageWindow (jsCategoryFilter seedProducts (some "electronics")) 2 1) :=
  ⟨⟨by decide, by decide⟩,
    (claim_C5_pagination seedProducts (some "electronics") 1 (by decide) (by decide)).1
      2 (by decide)⟩

/-- C6: every POST or PUT whose `x-api-key` is missing or differs from the
configured secret is answered 401 by the authentication middleware, the
collection is unchanged, and validation never runs — the outcome does not
depend on the request body at all. -/
theorem claim_C6_auth_gate (secret : String) (key : Option String)
    (hkey : key = none ∨ ∀ s : String, key = some s → s ≠ secret) :
    ∀ (l : List Obj) (freshId pid : String) (b b2 : Obj),
      handlePost secret l key freshId b = (.err (.auth authFailedMessage), l)
      ∧ handlePut secret l key pid b = (.err (.auth authFailedMessage), l)
      ∧ respStatus (handlePost secret l key freshId b).1 = 401
      ∧ respStatus (handlePut secret l key pid b).1 = 401
      ∧ (handlePost secret l key freshId b).2 = l
      ∧ (handlePut secret l key pid b).2 = l
      ∧ handlePost secret l key freshId b = handlePost secret l key freshId b2
      ∧ handlePut secret l key pid b = handlePut secret l key pid b2 := by
  have hfail : authFails key secret = true := by
    cases key with
    | none => rfl
    | some s =>
      rcases hkey with h1 | h2
      · exact Option.noConfusion h1
      · have hne := h2 s rfl
        simp only [authFails, Bool.or_eq_true, beq_iff_eq, bne_iff_ne, ne_eq]
        right
        exact hne
  intro l freshId pid b b2
  refine ⟨?_, ?_, ?_, ?_, ?_, ?_, ?_, ?_⟩ <;>
    simp [handlePost, handlePut, hfail, respStatus, errorHandler, errStatusCode]

/-- C6 witness: a wrong key on a POST with a perfectly valid body leaves the
seed collection unchanged and yields the 401 authentication failure. -/
theorem claim_C6_witness :
    ((some "wrong-key" : Option String) = none
      ∨ ∀ s : String, (some "wrong-key" : Option String) = some s → s ≠ "super-secret-key-123")
    ∧ handlePost "super-secret-key-123" seedProducts (some "wrong-key") "u1" putBody
        = (.err (.auth authFailedMessage), seedProducts) :=
  ⟨Or.inr (fun s hs => by cases hs; decide),
    (claim_C6_auth_gate "super-secret-key-123" (some "wrong-key")
      (Or.inr (fun s hs => by cases hs; decide))
      seedProducts "u1" "1" putBody putBody).1⟩

/-- C7: `validateProduct` evaluates the four rules independently and
collects every violation — the defect list's length is the number of
violated rules and each rule's message is present exactly when that rule is
violated; in particular the payload with name `ab`, price `-1` and category
`""` produces, through the full authenticated POST chain, a 400 response
whose details list has exactly the three corresponding entries. -/
theorem claim_C7_validation_collects_all :
    (∀ b : Obj,
      (validateProduct b).length =
        (if nameDefect b.name then 1 else 0) + (if priceDefect b.price then 1 else 0)
        + (if categoryDefect b.category then 1 else 0)
        + (if inStockDefect b.inStock then 1 else 0)
      ∧ (nameDefectMessage ∈ validateProduct b ↔ nameDefect b.name = true)
      ∧ (priceDefectMessage ∈ validateProduct b ↔ priceDefect b.price = true)
      ∧ (categoryDefectMessage ∈ validateProduct b ↔ categoryDefect b.category = true)
      ∧ (inStockDefectMessage ∈ validateProduct b ↔ inStockDefect b.inStock = true))
    ∧ validateProduct invalidBody
        = [nameDefectMessage, priceDefectMessage, categoryDefectMessage]
    ∧ (validateProduct invalidBody).length = 3
    ∧ respStatus (handlePost "super-secret-key-123" seedProducts
        (some "super-secret-key-123") "uuid-7" invalidBody).1 = 400
    ∧ respDetails (handlePost "super-secret-key-123" seedProducts
        (some "super-secret-key-123") "uuid-7" invalidBody).1
        = some [nameDefectMessage, priceDefectMessage, categoryDefectMessage] := by
  refine ⟨?_, by decide, by decide, by decide, by decide⟩
  intro b
  cases hn : nameDefect b.name <;> cases hp : priceDefect b.price <;>
    cases hc : categoryDefect b.category <;> cases hs : inStockDefect b.inStock <;>
    simp [validateProduct, hn, hp, hc, hs, nameDefectMessage, priceDefectMessage,
      categoryDefectMessage, inStockDefectMessage]

/-- C8: update applies the same full-record validation as create — an
authenticated PUT whose body omits `name`, `price` or `category` is answered
400 with the validation failure and the collection is unchanged, even though
update is otherwise a partial merge. -/
theorem claim_C8_full_validation_on_update (secret : String) (key : Option String)
    (hauth : authFails key secret = false) (l : List Obj) (pid : String) (b : Obj)
    (hmiss : b.name = none ∨ b.price = none ∨ b.category = none) :
    handlePut secret l key pid b
      = (.err (.validation validationFailedMessage (validateProduct b)), l)
    ∧ respStatus (handlePut secret l key pid b).1 = 400
    ∧ (handlePut secret l key pid b).2 = l := by
  have hne : ¬ validateProduct b = [] := by
    rcases hmiss with h | h | h
    · intro hcon
      rw [validateProduct, h] at hcon
      simp [nameDefect] at hcon
    · intro hcon
      rw [validateProduct, h] at hcon
      simp [priceDefect] at hcon
    · intro hcon
      rw [validateProduct, h] at hcon
      simp [categoryDefect] at hcon
  refine ⟨?_, ?_, ?_⟩ <;>
    simp [handlePut, hauth, hne, respStatus, errorHandler, errStatusCode]

/-- C8 witness: an authenticated PUT on seed id 1 with a body lacking `name`
gives 400 and leaves the collection untouched. -/
theorem claim_C8_witness :
    (authFails (some "super-secret-key-123") "super-secret-key-123" = false
      ∧ (noNameBody.name = none ∨ noNameBody.price = none ∨ noNameBody.category = none))
    ∧ handlePut "super-secret-key-123" seedProducts (some "super-secret-key-123")
        "1" noNameBody
      = (.err (.validation validationFailedMessage (validateProduct noNameBody)),
         seedProducts) :=
  ⟨⟨by decide, Or.inl rfl⟩,
    (claim_C8_full_validation_on_update "super-secret-key-123"
      (some "super-secret-key-123") (by decide) seedProducts "1" noNameBody
      (Or.inl rfl)).1⟩

/-- C9: every successful update stores and returns a record whose id is the
path id — the spread pins `id` last, so any `id` in the request body is
ignored — and every field omitted from the body retains the prior value of
the record found at the updated position. -/
theorem claim_C9_update_pins_id (secret : String) (key : Option String) (l : List Obj)
    (pid : String) (body : Obj) (r : Obj) (l2 : List Obj)
    (h : handlePut secret l key pid body = (.okProduct 200 r, l2)) :
    r.id = some (.jstr pid)
    ∧ ∃ i old, jsFindEntry (fun p => p.id == some (.jstr pid)) l = some (i, old)
        ∧ l[i]? = some old
        ∧ old.id = some (.jstr pid)
        ∧ r = { mergeObj old body with id := some (.jstr pid) }
        ∧ l2 = l.set i r
        ∧ (body.name = none → r.name = old.name)
        ∧ (body.description = none → r.description = old.description)
        ∧ (body.price = none → r.price = old.price)
        ∧ (body.category = none → r.category = old.category)
        ∧ (body.inStock = none → r.inStock = old.inStock) := by
  cases hauth : authFails key secret with
  | true => simp [handlePut, hauth] at h
  | false =>
    by_cases hv : validateProduct body = []
    · cases hfind : jsFindEntry (fun p => p.id == some (.jstr pid)) l with
      | none => simp [handlePut, hauth, hv, hfind] at h
      | some e =>
        obtain ⟨i, old⟩ := e
        have hval : (Response.okProduct 200
              ({ mergeObj old body with id := some (.jstr pid) } : Obj),
            l.set i ({ mergeObj old body with id := some (.jstr pid) } : Obj))
            = (Response.okProduct 200 r, l2) := by
          rw [← h]
          simp [handlePut, hauth, hv, hfind]
        have hfst := congrArg Prod.fst hval
        have hr : ({ mergeObj old body with id := some (.jstr pid) } : Obj) = r :=
          (Response.okProduct.inj hfst).2
        have hl2 : l.set i ({ mergeObj old body with id := some (.jstr pid) } : Obj) = l2 :=
          congrArg Prod.snd hval
        obtain ⟨hget, hpred⟩ := jsFindEntry_some _ l i old hfind
        have hold : old.id = some (.jstr pid) := by simpa using hpred
        subst hr
        constructor
        · rfl
        refine ⟨i, old, rfl, hget, hold, rfl, hl2.symm, ?_, ?_, ?_, ?_, ?_⟩ <;>
          intro hb <;> simp [mergeObj, spreadField, hb]
    · simp [handlePut, hauth, hv] at h

/-- C9 witness: concrete successful update of seed record 1 whose body
carries a different `id` (999) and omits description and inStock; the
result keeps id 1 and the omitted fields. -/
theorem claim_C9_witness :
    handlePut "super-secret-key-123" seedProducts (some "super-secret-key-123")
        "1" putBody
      = (.okProduct 200 putRec, putList)
    ∧ putRec.id = some (.jstr "1") := by
  have hput : handlePut "super-secret-key-123" seedProducts (some "super-secret-key-123")
      "1" putBody = (.okProduct 200 putRec, putList) := by decide
  exact ⟨hput,
    (claim_C9_update_pins_id "super-secret-key-123" (some "super-secret-key-123")
      seedProducts "1" putBody putRec putList hput).1⟩
